import Mathlib

/-!
Verification development for the Avito daily-rent parser bot.

The definitions below are a shallow embedding of the extraction-and-persistence
core (`avito_processor.py`) together with the id-ordered journal query of the
reporting bot (`telegram-bot/bot.py`).  HTML access is modelled at the
BeautifulSoup interface: a `Card` records, for each hard-coded CSS selector the
code queries, the result that the soup library would return; text extraction
(`get_text`) is fallible (`Except String _`) because the Python runtime may
raise inside it, and those are exactly the exceptions the code's
`try`/`except` blocks absorb.  The SQLite table is modelled as a list of rows
plus the AUTOINCREMENT counter; `datetime.now()` is modelled by an explicit
`now` argument threaded to the parse; JSON (de)serialisation of the `images`
column round-trips, so the column is modelled as the list itself.
-/

namespace Avito

/-- Python `str.lower` restricted to the alphabets this code base meets:
ASCII letters and the Russian alphabet (А..Я plus Ё). -/
def ruLower (c : Char) : Char :=
  if 'A' ≤ c ∧ c ≤ 'Z' then Char.ofNat (c.toNat + 32)
  else if 'А' ≤ c ∧ c ≤ 'Я' then Char.ofNat (c.toNat + 32)
  else if c = 'Ё' then 'ё'
  else c

/-- Python `str.lower` on a whole string (see `ruLower`). -/
def lowerStr (s : String) : String := ⟨s.data.map ruLower⟩

/-- The whitespace class of Python's regex `\s` restricted to the characters
that occur in this code's inputs (ASCII whitespace and the no-break space). -/
def pySpace (c : Char) : Bool :=
  c = ' ' || c = '\t' || c = '\n' || c = '\r' || c = '\x0b' || c = '\x0c' || c = '\xa0'

/-- Character-list core of Python's `re.sub(r'\s+', ' ', s)`: every maximal
whitespace run becomes a single space. -/
def collapseChars : List Char → List Char
  | [] => []
  | c :: rest =>
    if pySpace c then
      match rest with
      | [] => [' ']
      | d :: _ => if pySpace d then collapseChars rest else ' ' :: collapseChars rest
    else c :: collapseChars rest

/-- Python `re.sub(r'\s+', ' ', s)`. -/
def collapseWs (s : String) : String := ⟨collapseChars s.data⟩

/-- Python `str.strip()` (no arguments): trims whitespace at both ends. -/
def pyStrip (s : String) : String :=
  ⟨((s.data.dropWhile pySpace).reverse.dropWhile pySpace).reverse⟩

/-- Case-insensitive prefix test on character lists (Python `re.IGNORECASE`
matching of a literal keyword). -/
def isPrefixCi : List Char → List Char → Bool
  | [], _ => true
  | _ :: _, [] => false
  | n :: ns, h :: hs => (ruLower h == ruLower n) && isPrefixCi ns hs

/-- Substring containment on character lists: `containsSub needle hay`
is Python's `needle in hay`. -/
def containsSub (needle : List Char) : List Char → Bool
  | [] => needle.isEmpty
  | h :: t => needle.isPrefixOf (h :: t) || containsSub needle t

/-- Python `needle in hay` on strings. -/
def strContains (hay needle : String) : Bool := containsSub needle.data hay.data

/-- Python `s.startswith(pfx)` (Lean's `String.startsWith`), stated
structurally on the character lists so that it computes by reduction. -/
def startsWithStr (s pfx : String) : Bool := pfx.data.isPrefixOf s.data

/-- Replacement of every non-overlapping occurrence of the nonempty pattern
`p :: ps` by `rep`, left to right — Python `str.replace` on character lists.
The recursion is structural in a fuel argument (one unit per examined
position, so the input length suffices) to keep the definition reducible by
the kernel. -/
def replaceChars (p : Char) (ps rep : List Char) : Nat → List Char → List Char
  | _, [] => []
  | 0, l => l
  | Nat.succ f, c :: rest =>
    if (p :: ps).isPrefixOf (c :: rest) then
      rep ++ replaceChars p ps rep f (rest.drop ps.length)
    else c :: replaceChars p ps rep f rest

/-- Python `s.replace(pat, rep)`; the code only uses it with the nonempty
literal pattern of the `data-marker` unwrapping. -/
def replaceStr (s pat rep : String) : String :=
  match pat.data with
  | [] => s
  | p :: ps => ⟨replaceChars p ps rep.data s.data.length s.data⟩

/-- Case-insensitive substring search, i.e. `re.search(literal, hay, re.IGNORECASE)`
viewed as a mere match test. -/
def ciContains (hay needle : String) : Bool :=
  containsSub (lowerStr needle).data (lowerStr hay).data

/-- Acceptance test of `parse_price`:
`'₽' in price_text or 'руб' in price_text.lower()`. -/
def hasCurrency (t : String) : Bool :=
  strContains t "₽" || strContains (lowerStr t) "руб"

/-- One scraped listing: the fields of the Python class `AvitoItem`.
`parsed_date` holds the `datetime.now().isoformat()`-style timestamp as the
string the database column receives. -/
structure AvitoItem where
  title : String := ""
  price : String := ""
  bail : String := ""
  tax : String := ""
  services : String := ""
  address : String := ""
  desc : String := ""
  images : List String := []
  link : String := ""
  parsed_date : String := ""
deriving DecidableEq, Repr

/-- An `<img>` element as the image extractor reads it: its `src` and
`data-src` attributes. -/
structure ImgElem where
  src : Option String := none
  dataSrc : Option String := none
deriving DecidableEq, Repr

/-- One carousel element matched by a carousel selector: its inner `<img>`
(if `select_one('img')` finds one) and its `data-marker` attribute
(`item.get('data-marker', '')`, so absent means `""`). -/
structure CarouselItem where
  img : Option ImgElem := none
  dataMarker : String := ""
deriving DecidableEq, Repr

/-- An anchor element as `parse_link` reads it: its `href` attribute. -/
structure LinkElem where
  href : Option String := none
deriving DecidableEq, Repr

/-- An address block matched by an address selector: the `get_text(strip=True)`
results of the street/house anchors found inside it, and its own full
`get_text()`.  Both may raise, which the surrounding `try` absorbs. -/
structure AddrBlock where
  streetTexts : Except String (List String) := .ok []
  fullText : Except String String := .ok ""

/-- One listing card (`item_element`), modelled at the BeautifulSoup interface:
for each selector string the code queries, the card records what the library
returns.  `titleQ`, `priceQ` and `descQ` give, per selector, the matched
element's `get_text(strip=True)` outcome (`none` when `select_one` finds
nothing); `cardText` is `item_element.get_text()`; `carouselQ` lists the
matches of `item_element.select(selector)`; `fallbackImgs` lists the matches
of `select('img[src*="avito.st"]')`; `linkQ` gives the anchor matched per
link selector. -/
structure Card where
  titleQ : String → Option (Except String String) := fun _ => none
  priceQ : String → Option (Except String String) := fun _ => none
  cardText : Except String String := .ok ""
  addressQ : String → Option AddrBlock := fun _ => none
  descQ : String → Option (Except String String) := fun _ => none
  carouselQ : String → List CarouselItem := fun _ => []
  fallbackImgs : List ImgElem := []
  linkQ : String → Option LinkElem := fun _ => none

/-- The five card-discovery selectors of `parse_html`, in source order. -/
def item_selectors : List String :=
  ["[data-marker=\"item\"]", ".iva-item-root", ".items-items-kAJAg .iva-item-root",
   ".item-item", ".js-catalog-item"]

/-- Title selectors of `parse_title`, in source order. -/
def title_selectors : List String :=
  ["[data-marker=\"item-title\"]", ".iva-item-titleStep", ".title-root", "h3 a",
   ".iva-item-title"]

/-- Price selectors of `parse_price`, in source order. -/
def price_selectors : List String :=
  ["[data-marker=\"item-price\"]", ".price-price", ".iva-item-priceStep", ".js-item-price"]

/-- Address selectors of `parse_address`, in source order. -/
def address_selectors : List String :=
  ["[data-marker=\"item-address\"]", ".iva-item-address", ".geo-address", ".item-address"]

/-- Description selectors of `parse_description`, in source order. -/
def description_selectors : List String :=
  ["[data-marker=\"item-specific-params\"]", ".iva-item-description", ".item-description",
   ".description-text"]

/-- Carousel selectors of `parse_images`, in source order. -/
def carousel_selectors : List String :=
  [".photo-slider-list-item-r2YDC", "[data-marker*=\"slider-image\"]",
   ".photo-slider-item-mbNB3"]

/-- Link selectors of `parse_link`, in source order. -/
def link_selectors : List String :=
  ["a[data-marker=\"item-title\"]", "a.iva-item-title", "a.link-link",
   "a[href*=\"/ufa/kvartiry/\"]"]

/-- Selector loop of `parse_title`: first nonempty text wins, default `""`. -/
def firstTitle (c : Card) : List String → Except String String
  | [] => .ok ""
  | s :: rest =>
    match c.titleQ s with
    | none => firstTitle c rest
    | some (.error e) => .error e
    | some (.ok t) => if t = "" then firstTitle c rest else .ok t

/-- `AvitoHTMLParser.parse_title`. -/
def parse_title (c : Card) : Except String String := firstTitle c title_selectors

/-- Selector loop of `parse_price`: the matched text is whitespace-collapsed
and accepted only when it carries a currency marker; otherwise the next
selector is tried; default `""`. -/
def firstPrice (c : Card) : List String → Except String String
  | [] => .ok ""
  | s :: rest =>
    match c.priceQ s with
    | none => firstPrice c rest
    | some (.error e) => .error e
    | some (.ok t0) =>
      let t := collapseWs t0
      if hasCurrency t then .ok t else firstPrice c rest

/-- `AvitoHTMLParser.parse_price`. -/
def parse_price (c : Card) : Except String String := firstPrice c price_selectors

/-- Lazy group `(\d[\d\s]*?₽)` continued after its leading digit: the shortest
run of digits/whitespace ending at the first `₽`. -/
def takeAmt : List Char → Option (List Char)
  | [] => none
  | c :: rest =>
    if c = '₽' then some [c]
    else if c.isDigit || pySpace c then (takeAmt rest).map (c :: ·)
    else none

/-- Realises `[^.]*?(\d[\d\s]*?₽)` from a given start: scan forward (never past
a `.`) for the first digit from which `takeAmt` completes. -/
def findAmt : List Char → Option (List Char)
  | [] => none
  | c :: rest =>
    if c = '.' then none
    else if c.isDigit then
      match takeAmt rest with
      | some run => some (c :: run)
      | none => findAmt rest
    else findAmt rest

/-- `re.search(kw + r'[^.]*?(\d[\d\s]*?₽)', text, re.IGNORECASE)` returning the
captured amount: try every occurrence of the keyword left to right. -/
def searchAmt (kw : List Char) : List Char → Option (List Char)
  | [] => none
  | h :: t =>
    if isPrefixCi kw (h :: t) then
      match findAmt (List.drop kw.length (h :: t)) with
      | some amt => some amt
      | none => searchAmt kw t
    else searchAmt kw t

/-- Keyword list of the `bail_patterns` regexes, in source order. -/
def bail_keywords : List String := ["залог", "депозит", "обеспечение"]

/-- Pattern loop of `parse_bail`: first pattern with a match wins and its
captured amount is spliced into the template. -/
def bailLoop (t : List Char) : List String → String
  | [] => ""
  | kw :: rest =>
    match searchAmt kw.data t with
    | some amt => "Залог " ++ (⟨amt⟩ : String)
    | none => bailLoop t rest

/-- `AvitoHTMLParser.parse_bail`. -/
def parse_bail (c : Card) : Except String String :=
  c.cardText.map fun t => bailLoop t.data bail_keywords

/-- Maximal digit prefix and the remainder (`\d+` greedy). -/
def takeDigits : List Char → List Char × List Char
  | [] => ([], [])
  | c :: rest =>
    if c.isDigit then
      let (ds, r) := takeDigits rest
      (c :: ds, r)
    else ([], c :: rest)

/-- Realises `[^.]*?(\d+%)` from a given start: scan forward (never past a `.`)
for a maximal digit run immediately followed by `%`. -/
def findPct : List Char → Option (List Char)
  | [] => none
  | c :: rest =>
    if c = '.' then none
    else if c.isDigit then
      match takeDigits (c :: rest) with
      | (ds, '%' :: _) => some (ds ++ ['%'])
      | _ => findPct rest
    else findPct rest

/-- `re.search(kw + r'[^.]*?(\d+%)', text, re.IGNORECASE)` returning the
captured percentage. -/
def searchPct (kw : List Char) : List Char → Option (List Char)
  | [] => none
  | h :: t =>
    if isPrefixCi kw (h :: t) then
      match findPct (List.drop kw.length (h :: t)) with
      | some p => some p
      | none => searchPct kw t
    else searchPct kw t

/-- `AvitoHTMLParser.parse_tax`.  The third pattern `r'% комиссии'` has no
capturing group, so when it is the one that matches, `match.group(1)` raises
`IndexError`; that exception escapes `parse_tax` and is caught by
`parse_single_item`, which drops the card. -/
def parse_tax (c : Card) : Except String String := do
  let t ← c.cardText
  match searchPct "комиссия".data t.data with
  | some p => pure ("Комиссия " ++ (⟨p⟩ : String))
  | none =>
    match searchPct "вознаграждение".data t.data with
    | some p => pure ("Комиссия " ++ (⟨p⟩ : String))
    | none =>
      if ciContains t "% комиссии" then throw "IndexError: no such group"
      else pure ""

/-- Occurrence of a literal word with no `.` before it (`[^.]*` then the word),
case-insensitively, from a given start. -/
def findWordNoDot (w : List Char) : List Char → Bool
  | [] => false
  | h :: t =>
    if isPrefixCi w (h :: t) then true
    else if h = '.' then false
    else findWordNoDot w t

/-- Match test of `re.search(kw + r'[^.]*' + w, text, re.IGNORECASE)`. -/
def searchKwWord (kw w : List Char) : List Char → Bool
  | [] => false
  | h :: t =>
    if isPrefixCi kw (h :: t) && findWordNoDot w (List.drop kw.length (h :: t)) then true
    else searchKwWord kw w t

/-- `AvitoHTMLParser.parse_services`. -/
def parse_services (c : Card) : Except String String :=
  c.cardText.map fun t =>
    if searchKwWord "ЖКУ".data "включены".data t.data
        || searchKwWord "коммуналка".data "включена".data t.data
        || searchKwWord "ком. услуги".data "включены".data t.data then
      "ЖКУ включены"
    else ""

/-- Realises `re.search(r'^([^,]+(?:,[^,]+)?)', full_text)` returning group 1:
the text up through the second comma-separated segment. -/
def addrSeg (ft : List Char) : Option String :=
  let seg1 := ft.takeWhile (fun ch => ch != ',')
  if seg1.isEmpty then none
  else
    match ft.drop seg1.length with
    | ',' :: r2 =>
      let seg2 := r2.takeWhile (fun ch => ch != ',')
      if seg2.isEmpty then some ⟨seg1⟩ else some ⟨seg1 ++ ',' :: seg2⟩
    | _ => some ⟨seg1⟩

/-- Selector loop of `parse_address`: prefer the first two street/house anchor
texts joined with `", "`; fall back to the leading comma segments of the
block's full text; otherwise try the next selector. -/
def firstAddress (c : Card) : List String → Except String String
  | [] => .ok ""
  | s :: rest =>
    match c.addressQ s with
    | none => firstAddress c rest
    | some blk => do
      let texts ← blk.streetTexts
      let parts := (texts.take 2).filter (fun t => t != "")
      if parts ≠ [] then
        pure (pyStrip (collapseWs (String.intercalate ", " parts)))
      else
        let ft ← blk.fullText
        if ft ≠ "" then
          match addrSeg ft.data with
          | some a => pure (pyStrip a)
          | none => firstAddress c rest
        else firstAddress c rest

/-- `AvitoHTMLParser.parse_address`. -/
def parse_address (c : Card) : Except String String := firstAddress c address_selectors

/-- Selector loop of `parse_description`: first nonempty text wins, truncated
to 500 characters plus a `"..."` marker when longer. -/
def firstDesc (c : Card) : List String → Except String String
  | [] => .ok ""
  | s :: rest =>
    match c.descQ s with
    | none => firstDesc c rest
    | some (.error e) => .error e
    | some (.ok d) =>
      if d = "" then firstDesc c rest
      else if d.length > 500 then .ok ((⟨d.data.take 500⟩ : String) ++ "...") else .ok d

/-- `AvitoHTMLParser.parse_description`. -/
def parse_description (c : Card) : Except String String := firstDesc c description_selectors

/-- Python truthiness of an optional string attribute: `if src:` keeps it only
when it is present and nonempty. -/
def truthy : Option String → Option String
  | some s => if s = "" then none else some s
  | none => none

/-- Python `a or b` on attribute values. -/
def pyAttrOr (a b : Option String) : Option String :=
  match a with
  | some s => if s = "" then b else some s
  | none => b

/-- URL normalisation shared by `parse_images` and `parse_link`:
`//…` becomes `https://…`, `/…` becomes `https://www.avito.ru/…`. -/
def normUrl (s : String) : String :=
  if startsWithStr s "//" then "https:" ++ s
  else if startsWithStr s "/" then "https://www.avito.ru" ++ s
  else s

/-- Body of the carousel loop of `parse_images` for one carousel element.
The leading guard realises `if len(images) >= 3: break`.  With an inner
`<img>`: `src` falls back to `data-src`, is normalised, and is appended only
if it starts with `http` and is not yet present.  Without one: the
`data-marker` attribute is unwrapped; note dedup happens on the raw value
and no `http` check is made. -/
def imgStep (images : List String) (it : CarouselItem) : List String :=
  if images.length ≥ 3 then images
  else
    match it.img with
    | some img =>
      match truthy (pyAttrOr img.src img.dataSrc) with
      | some src0 =>
        let src := normUrl src0
        if startsWithStr src "http" && !images.contains src then images ++ [src] else images
      | none => images
    | none =>
      let dm := it.dataMarker
      if strContains dm "slider-image/image-" then
        let src0 := replaceStr dm "slider-image/image-" ""
        if src0 != "" && !images.contains src0 then
          images ++ [if startsWithStr src0 "//" then "https:" ++ src0 else src0]
        else images
      else images

/-- Body of the fallback loop of `parse_images` for one `img[src*="avito.st"]`
match: dedup on the raw `src`, normalise `//` only, no `http` check. -/
def fbStep (images : List String) (img : ImgElem) : List String :=
  if images.length ≥ 3 then images
  else
    match truthy img.src with
    | some src0 =>
      if !images.contains src0 then
        images ++ [if startsWithStr src0 "//" then "https:" ++ src0 else src0]
      else images
    | none => images

/-- `AvitoHTMLParser.parse_images`. -/
def parse_images (c : Card) : List String :=
  let images := carousel_selectors.foldl (fun acc s => (c.carouselQ s).foldl imgStep acc) []
  let images := if images.isEmpty then c.fallbackImgs.foldl fbStep images else images
  images.take 3

/-- Selector loop of `parse_link`: first anchor with a truthy `href` wins,
normalised to absolute. -/
def firstLink (c : Card) : List String → String
  | [] => ""
  | s :: rest =>
    match c.linkQ s with
    | none => firstLink c rest
    | some el =>
      match truthy el.href with
      | some h => normUrl h
      | none => firstLink c rest

/-- `AvitoHTMLParser.parse_link`. -/
def parse_link (c : Card) : String := firstLink c link_selectors

/-- The `try` body of `parse_single_item` with `parsed_date` left blank: the
nine field extractors run in source order and the first exception aborts the
card.  (`datetime.now()` is supplied by the caller, see `parse_single_item`;
no extractor reads `parsed_date`, so setting it last is equivalent to setting
it at construction.) -/
def parseSingleItemCore (c : Card) : Except String AvitoItem := do
  let title ← parse_title c
  let price ← parse_price c
  let bail ← parse_bail c
  let tax ← parse_tax c
  let services ← parse_services c
  let address ← parse_address c
  let desc ← parse_description c
  pure { title := title, price := price, bail := bail, tax := tax,
         services := services, address := address, desc := desc,
         images := parse_images c, link := parse_link c, parsed_date := "" }

/-- `AvitoHTMLParser.parse_single_item`: `.error` is the `except` branch that
logs and returns `None`. -/
def parse_single_item (now : String) (c : Card) : Except String AvitoItem :=
  (parseSingleItemCore c).map fun it => { it with parsed_date := now }

/-- One page of markup, at the interface `parse_html` uses it through:
`select s` is `soup.select(s)`. -/
structure Markup where
  select : String → List Card

/-- Card discovery of `parse_html`: the first of the five item selectors that
matches at least one element wins; the loop then `break`s. -/
def selectedCards (m : Markup) : List Card :=
  match item_selectors.find? (fun s => !(m.select s).isEmpty) with
  | some s => m.select s
  | none => []

/-- Per-card keep rule of `parse_html`: a card whose extraction raised is
dropped, and so is a record with an empty title
(`if avito_item and avito_item.title`). -/
def keepCore (c : Card) : Option AvitoItem :=
  match parseSingleItemCore c with
  | .error _ => none
  | .ok it => if it.title = "" then none else some it

/-- `parse_html` with `parsed_date` left blank. -/
def parseHtmlCore (m : Markup) : List AvitoItem :=
  (selectedCards m).filterMap keepCore

/-- `AvitoHTMLParser.parse_html`; `now` models `datetime.now()` of this pass. -/
def parse_html (now : String) (m : Markup) : List AvitoItem :=
  (parseHtmlCore m).map fun it => { it with parsed_date := now }

/-- One row of the `apartments` table (`init_database` schema): the synthetic
`id INTEGER PRIMARY KEY AUTOINCREMENT` plus the listing columns.  The
`images` column stores `json.dumps(item.images)`, and every read of it passes
through `json.loads`, so the column is modelled as the list itself. -/
structure Row where
  id : Nat
  title : String
  price : String
  bail : String
  tax : String
  services : String
  address : String
  desc : String
  images : List String
  link : String
  parsed_date : String
deriving DecidableEq, Repr

/-- The SQLite store: the table contents plus the AUTOINCREMENT counter, which
is strictly larger than every id ever handed out. -/
structure AvitoDatabase where
  rows : List Row := []
  nextId : Nat := 1
deriving DecidableEq, Repr

/-- `AvitoDatabase.init_database` on a fresh path: an empty table, with
AUTOINCREMENT starting at 1. -/
def init_database : AvitoDatabase := {}

/-- The row `save_apartment` inserts for `item` under a fresh id. -/
def mkRow (id : Nat) (item : AvitoItem) : Row :=
  { id := id, title := item.title, price := item.price, bail := item.bail,
    tax := item.tax, services := item.services, address := item.address,
    desc := item.desc, images := item.images, link := item.link,
    parsed_date := item.parsed_date }

/-- `AvitoDatabase.save_apartment`: `INSERT OR REPLACE` keyed by the UNIQUE
`link` column deletes any conflicting row and inserts a fresh row under a new
AUTOINCREMENT id.  The model's storage never faults, so the result flag is
`true`; the Python `except` branch (return `False` on an I/O error) is covered
by proving the run loop against an abstract store (`StoreOps`). -/
def save_apartment (db : AvitoDatabase) (item : AvitoItem) : AvitoDatabase × Bool :=
  ({ rows := db.rows.filter (fun r => r.link != item.link) ++ [mkRow db.nextId item],
     nextId := db.nextId + 1 }, true)

/-- `AvitoDatabase.apartment_exists`: `SELECT 1 FROM apartments WHERE link = ?`. -/
def apartment_exists (db : AvitoDatabase) (link : String) : Bool :=
  db.rows.any (fun r => r.link == link)

/-- One entry of the list `get_recent_items` returns: title, price, address,
image count, link and the parse timestamp. -/
structure Summary where
  title : String
  price : String
  address : String
  images_count : Nat
  link : String
  parsed_date : String
deriving DecidableEq, Repr

/-- The dictionary `get_recent_items` builds from a row
(`len(json.loads(images))` is the stored list's length). -/
def mkSummary (r : Row) : Summary :=
  { title := r.title, price := r.price, address := r.address,
    images_count := r.images.length, link := r.link, parsed_date := r.parsed_date }

/-- Lexicographic text comparison (SQLite's default TEXT collation compares
byte-wise; UTF-8 byte order agrees with code-point order, so comparing the
character lists is faithful). -/
def strLeB : List Char → List Char → Bool
  | [], _ => true
  | _ :: _, [] => false
  | a :: as, b :: bs =>
    if a.toNat < b.toNat then true
    else if b.toNat < a.toNat then false
    else strLeB as bs

lemma strLeB_cons_le {a b : Char} {as bs : List Char}
    (h : strLeB (a :: as) (b :: bs) = true) : a.toNat ≤ b.toNat := by
  unfold strLeB at h
  by_cases h1 : a.toNat < b.toNat
  · omega
  · rw [if_neg h1] at h
    by_cases h2 : b.toNat < a.toNat
    · rw [if_pos h2] at h; exact absurd h (by simp)
    · omega

lemma strLeB_cons_eq {a b : Char} (hab : a.toNat = b.toNat) (as bs : List Char) :
    strLeB (a :: as) (b :: bs) = strLeB as bs := by
  show (if a.toNat < b.toNat then true else if b.toNat < a.toNat then false
    else strLeB as bs) = strLeB as bs
  rw [if_neg (by omega), if_neg (by omega)]

lemma strLeB_total : ∀ x y : List Char, strLeB x y = true ∨ strLeB y x = true := by
  intro x
  induction x with
  | nil => intro y; exact Or.inl rfl
  | cons a as ih =>
    intro y
    cases y with
    | nil => exact Or.inr rfl
    | cons b bs =>
      rcases Nat.lt_trichotomy a.toNat b.toNat with h | h | h
      · exact Or.inl (by unfold strLeB; rw [if_pos h])
      · rw [strLeB_cons_eq h, strLeB_cons_eq h.symm]
        exact ih bs
      · exact Or.inr (by unfold strLeB; rw [if_pos h])

lemma strLeB_trans : ∀ x y z : List Char,
    strLeB x y = true → strLeB y z = true → strLeB x z = true := by
  intro x
  induction x with
  | nil => intro y z _ _; rfl
  | cons a as ih =>
    intro y z hxy hyz
    cases y with
    | nil => exact absurd hxy (by simp [strLeB])
    | cons b bs =>
      cases z with
      | nil => exact absurd hyz (by simp [strLeB])
      | cons c cs =>
        have hab := strLeB_cons_le hxy
        have hbc := strLeB_cons_le hyz
        by_cases hac : a.toNat < c.toNat
        · unfold strLeB; rw [if_pos hac]
        · have h1 : a.toNat = b.toNat := by omega
          have h2 : b.toNat = c.toNat := by omega
          rw [strLeB_cons_eq h1] at hxy
          rw [strLeB_cons_eq h2] at hyz
          rw [strLeB_cons_eq (h1.trans h2)]
          exact ih bs cs hxy hyz

/-- The comparison behind `ORDER BY parsed_date DESC` (SQLite compares the
stored timestamps as text). -/
def dateGe (a b : Row) : Prop := strLeB b.parsed_date.data a.parsed_date.data = true

instance : DecidableRel dateGe := fun _ _ =>
  inferInstanceAs (Decidable (_ = true))

instance : IsTotal Row dateGe :=
  ⟨fun a b => strLeB_total b.parsed_date.data a.parsed_date.data⟩

instance : IsTrans Row dateGe :=
  ⟨fun _ _ _ hab hbc => strLeB_trans _ _ _ hbc hab⟩

/-- The comparison behind `ORDER BY id DESC`. -/
def idGe (a b : Row) : Prop := b.id ≤ a.id

instance : DecidableRel idGe := fun a b => inferInstanceAs (Decidable (b.id ≤ a.id))

instance : IsTotal Row idGe := ⟨fun a b => le_total b.id a.id⟩

instance : IsTrans Row idGe := ⟨fun _ _ _ hab hbc => le_trans hbc hab⟩

/-- `AvitoProcessor.get_recent_items`:
`SELECT … ORDER BY parsed_date DESC LIMIT ?`.  `ORDER BY` is modelled as a
sort by the key relation (SQLite leaves the order of ties unspecified; the
model resolves them as `insertionSort` does). -/
def get_recent_items (db : AvitoDatabase) (limit : Nat) : List Summary :=
  ((List.insertionSort dateGe db.rows).take limit).map mkSummary

/-- One entry of the bot's journal page. -/
structure BotObj where
  id : Nat
  title : String
  price : String
  address : String
  desc : String
  images : List String
  link : String
deriving DecidableEq, Repr

/-- Python `s or default` on a text column (the stored strings are never
`NULL`, so falsy means empty). -/
def pyOrStr (s d : String) : String := if s = "" then d else s

/-- The dictionary `get_recent_objects` builds from a row, with its
falsy-field placeholders. -/
def mkBotObj (r : Row) : BotObj :=
  { id := r.id, title := pyOrStr r.title "Без названия",
    price := pyOrStr r.price "Не указана", address := pyOrStr r.address "Не указан",
    desc := pyOrStr r.desc "Описание отсутствует", images := r.images,
    link := pyOrStr r.link "" }

/-- `AvitoTelegramBot.get_recent_objects`:
`SELECT … ORDER BY id DESC LIMIT ? OFFSET ?` — the paginated journal. -/
def get_recent_objects (db : AvitoDatabase) (offset limit : Nat) : List BotObj :=
  (((List.insertionSort idGe db.rows).drop offset).take limit).map mkBotObj

/-- `AvitoTelegramBot.get_total_objects`: `SELECT COUNT(*) FROM apartments`. -/
def get_total_objects (db : AvitoDatabase) : Nat := db.rows.length

/-- The `self.stats` dictionary of `AvitoProcessor`. -/
structure Stats where
  total_processed : Nat := 0
  new_items : Nat := 0
  existing_items : Nat := 0
  errors : Nat := 0
deriving DecidableEq, Repr

/-- The store interface the run loop of `process_html` calls
(`self.database.apartment_exists` / `self.database.save_apartment`): the loop
is generic in the backing store, which lets the upsert-failure branch be
stated even though the model's concrete store never faults. -/
structure StoreOps (σ : Type) where
  existsLink : σ → String → Bool
  upsert : σ → AvitoItem → σ × Bool

/-- The body of the per-record loop of `AvitoProcessor.process_html`. -/
def stepGen {σ : Type} (S : StoreOps σ) (st : σ × Stats) (item : AvitoItem) : σ × Stats :=
  let s := { st.2 with total_processed := st.2.total_processed + 1 }
  if item.link = "" then (st.1, { s with errors := s.errors + 1 })
  else if S.existsLink st.1 item.link then
    (st.1, { s with existing_items := s.existing_items + 1 })
  else
    let r := S.upsert st.1 item
    if r.2 then (r.1, { s with new_items := s.new_items + 1 })
    else (r.1, { s with errors := s.errors + 1 })

/-- The per-record loop of `AvitoProcessor.process_html` over a page's
extracted records, in page order. -/
def runGen {σ : Type} (S : StoreOps σ) (items : List AvitoItem) (st : σ × Stats) : σ × Stats :=
  items.foldl (stepGen S) st

/-- The concrete store the processor is built with. -/
def dbOps : StoreOps AvitoDatabase := ⟨apartment_exists, save_apartment⟩

/-- `AvitoProcessor.__init__`: a fresh database handle and zeroed counters. -/
structure AvitoProcessor where
  db : AvitoDatabase := init_database
  stats : Stats := {}
deriving DecidableEq, Repr

/-- `setup_avito_processor()`: a processor over a fresh store. -/
def setup_avito_processor : AvitoProcessor := {}

/-- The loop-and-return tail of `AvitoProcessor.process_html`, applied to the
already-extracted records: runs the per-record loop on `self.stats` (which is
NOT reset first) and returns `self.stats`. -/
def process_items (p : AvitoProcessor) (items : List AvitoItem) : AvitoProcessor × Stats :=
  let r := runGen dbOps items (p.db, p.stats)
  ({ db := r.1, stats := r.2 }, r.2)

/-- `AvitoProcessor.process_html`: extract the page's records, then run the
persist loop; returns the accumulated `self.stats`.  Console output is not
modelled; the outer `except` branch is unreachable because the modelled parse
and store are total. -/
def process_html (p : AvitoProcessor) (now : String) (m : Markup) : AvitoProcessor × Stats :=
  process_items p (parse_html now m)

/-- Records rejected by the run loop for an empty link. -/
def emptyLinkCount (items : List AvitoItem) : Nat :=
  (items.filter (fun it => it.link == "")).length

/-- Records the run loop takes past the empty-link gate. -/
def nonemptyLinkCount (items : List AvitoItem) : Nat :=
  (items.filter (fun it => it.link != "")).length

/-- Well-formedness the AUTOINCREMENT counter maintains: every id ever handed
out is below `nextId`. -/
def dbWF (db : AvitoDatabase) : Prop := ∀ r ∈ db.rows, r.id < db.nextId

/-! Basic lemmas about the per-record loop. -/

lemma stepGen_empty {σ : Type} (S : StoreOps σ) (st : σ × Stats) (it : AvitoItem)
    (h : it.link = "") :
    stepGen S st it =
      (st.1, { st.2 with total_processed := st.2.total_processed + 1,
                         errors := st.2.errors + 1 }) := by
  simp [stepGen, h]

lemma stepGen_existing {σ : Type} (S : StoreOps σ) (st : σ × Stats) (it : AvitoItem)
    (h : it.link ≠ "") (he : S.existsLink st.1 it.link = true) :
    stepGen S st it =
      (st.1, { st.2 with total_processed := st.2.total_processed + 1,
                         existing_items := st.2.existing_items + 1 }) := by
  simp [stepGen, h, he]

lemma stepGen_new {σ : Type} (S : StoreOps σ) (st : σ × Stats) (it : AvitoItem)
    (h : it.link ≠ "") (he : S.existsLink st.1 it.link = false)
    (hu : (S.upsert st.1 it).2 = true) :
    stepGen S st it =
      ((S.upsert st.1 it).1,
        { st.2 with total_processed := st.2.total_processed + 1,
                    new_items := st.2.new_items + 1 }) := by
  simp [stepGen, h, he, hu]

lemma stepGen_fail {σ : Type} (S : StoreOps σ) (st : σ × Stats) (it : AvitoItem)
    (h : it.link ≠ "") (he : S.existsLink st.1 it.link = false)
    (hu : (S.upsert st.1 it).2 = false) :
    stepGen S st it =
      ((S.upsert st.1 it).1,
        { st.2 with total_processed := st.2.total_processed + 1,
                    errors := st.2.errors + 1 }) := by
  simp [stepGen, h, he, hu]

lemma stepGen_total {σ : Type} (S : StoreOps σ) (st : σ × Stats) (it : AvitoItem) :
    (stepGen S st it).2.total_processed = st.2.total_processed + 1 := by
  by_cases h : it.link = ""
  · rw [stepGen_empty S st it h]
  · by_cases he : S.existsLink st.1 it.link = true
    · rw [stepGen_existing S st it h he]
    · by_cases hu : (S.upsert st.1 it).2 = true
      · rw [stepGen_new S st it h (Bool.not_eq_true _ ▸ he) hu]
      · rw [stepGen_fail S st it h (Bool.not_eq_true _ ▸ he) (Bool.not_eq_true _ ▸ hu)]

lemma stepGen_sum {σ : Type} (S : StoreOps σ) (st : σ × Stats) (it : AvitoItem) :
    (stepGen S st it).2.new_items + (stepGen S st it).2.existing_items
        + (stepGen S st it).2.errors
      = st.2.new_items + st.2.existing_items + st.2.errors + 1 := by
  by_cases h : it.link = ""
  · rw [stepGen_empty S st it h]; dsimp only; omega
  · by_cases he : S.existsLink st.1 it.link = true
    · rw [stepGen_existing S st it h he]; dsimp only; omega
    · by_cases hu : (S.upsert st.1 it).2 = true
      · rw [stepGen_new S st it h (Bool.not_eq_true _ ▸ he) hu]; dsimp only; omega
      · rw [stepGen_fail S st it h (Bool.not_eq_true _ ▸ he) (Bool.not_eq_true _ ▸ hu)]
        dsimp only; omega

lemma stepGen_mono {σ : Type} (S : StoreOps σ) (st : σ × Stats) (it : AvitoItem) :
    st.2.total_processed ≤ (stepGen S st it).2.total_processed ∧
    st.2.new_items ≤ (stepGen S st it).2.new_items ∧
    st.2.existing_items ≤ (stepGen S st it).2.existing_items ∧
    st.2.errors ≤ (stepGen S st it).2.errors := by
  by_cases h : it.link = ""
  · rw [stepGen_empty S st it h]; dsimp only; exact ⟨by omega, le_rfl, le_rfl, by omega⟩
  · by_cases he : S.existsLink st.1 it.link = true
    · rw [stepGen_existing S st it h he]; dsimp only
      exact ⟨by omega, le_rfl, by omega, le_rfl⟩
    · by_cases hu : (S.upsert st.1 it).2 = true
      · rw [stepGen_new S st it h (Bool.not_eq_true _ ▸ he) hu]
        dsimp only; exact ⟨by omega, by omega, le_rfl, le_rfl⟩
      · rw [stepGen_fail S st it h (Bool.not_eq_true _ ▸ he) (Bool.not_eq_true _ ▸ hu)]
        dsimp only; exact ⟨by omega, le_rfl, le_rfl, by omega⟩

lemma runGen_nil {σ : Type} (S : StoreOps σ) (st : σ × Stats) : runGen S [] st = st := rfl

lemma runGen_cons {σ : Type} (S : StoreOps σ) (it : AvitoItem) (items : List AvitoItem)
    (st : σ × Stats) : runGen S (it :: items) st = runGen S items (stepGen S st it) := rfl

lemma runGen_total {σ : Type} (S : StoreOps σ) (items : List AvitoItem) :
    ∀ st : σ × Stats,
      (runGen S items st).2.total_processed = st.2.total_processed + items.length := by
  induction items with
  | nil => intro st; rfl
  | cons it items ih =>
    intro st
    rw [runGen_cons, ih (stepGen S st it), stepGen_total]
    simp [Nat.add_assoc, Nat.add_comm 1]

lemma runGen_sum {σ : Type} (S : StoreOps σ) (items : List AvitoItem) :
    ∀ st : σ × Stats,
      (runGen S items st).2.new_items + (runGen S items st).2.existing_items
          + (runGen S items st).2.errors
        = st.2.new_items + st.2.existing_items + st.2.errors + items.length := by
  induction items with
  | nil => intro st; rfl
  | cons it items ih =>
    intro st
    rw [runGen_cons, ih (stepGen S st it)]
    have := stepGen_sum S st it
    simp only [List.length_cons]
    omega

lemma runGen_mono {σ : Type} (S : StoreOps σ) (items : List AvitoItem) :
    ∀ st : σ × Stats,
      st.2.total_processed ≤ (runGen S items st).2.total_processed ∧
      st.2.new_items ≤ (runGen S items st).2.new_items ∧
      st.2.existing_items ≤ (runGen S items st).2.existing_items ∧
      st.2.errors ≤ (runGen S items st).2.errors := by
  induction items with
  | nil => intro st; exact ⟨le_rfl, le_rfl, le_rfl, le_rfl⟩
  | cons it items ih =>
    intro st
    have h1 := stepGen_mono S st it
    have h2 := ih (stepGen S st it)
    rw [runGen_cons]
    exact ⟨le_trans h1.1 h2.1, le_trans h1.2.1 h2.2.1,
      le_trans h1.2.2.1 h2.2.2.1, le_trans h1.2.2.2 h2.2.2.2⟩

/-- C1. For every sequence of extracted records, the run loop of
`process_html` counts each record exactly once, in page order: per record,
`total_processed` is always incremented; an empty link increments `errors`
and leaves the store untouched; otherwise the existence check decides between
`existing_items` (present) and an upsert whose success increments `new_items`
and whose failure increments `errors`; globally the `total_processed` delta
is the number of records, each record bumps exactly one of the three outcome
counters, and `process_html` returns the accumulated stats object
(`self.stats`). -/
theorem run_loop_counts_each_record_once :
    (∀ (σ : Type) (S : StoreOps σ) (st : σ × Stats) (it : AvitoItem),
      it.link = "" →
        stepGen S st it =
          (st.1, { st.2 with total_processed := st.2.total_processed + 1,
                             errors := st.2.errors + 1 })) ∧
    (∀ (σ : Type) (S : StoreOps σ) (st : σ × Stats) (it : AvitoItem),
      it.link ≠ "" → S.existsLink st.1 it.link = true →
        stepGen S st it =
          (st.1, { st.2 with total_processed := st.2.total_processed + 1,
                             existing_items := st.2.existing_items + 1 })) ∧
    (∀ (σ : Type) (S : StoreOps σ) (st : σ × Stats) (it : AvitoItem),
      it.link ≠ "" → S.existsLink st.1 it.link = false →
        stepGen S st it =
          ((S.upsert st.1 it).1,
            if (S.upsert st.1 it).2 then
              { st.2 with total_processed := st.2.total_processed + 1,
                          new_items := st.2.new_items + 1 }
            else
              { st.2 with total_processed := st.2.total_processed + 1,
                          errors := st.2.errors + 1 })) ∧
    (∀ (σ : Type) (S : StoreOps σ) (items : List AvitoItem) (st : σ × Stats),
      runGen S items st = List.foldl (stepGen S) st items ∧
      (runGen S items st).2.total_processed = st.2.total_processed + items.length ∧
      (runGen S items st).2.new_items + (runGen S items st).2.existing_items
          + (runGen S items st).2.errors
        = st.2.new_items + st.2.existing_items + st.2.errors + items.length) ∧
    (∀ (p : AvitoProcessor) (items : List AvitoItem),
      (process_items p items).2 = (process_items p items).1.stats) := by
  refine ⟨fun σ S st it h => stepGen_empty S st it h,
    fun σ S st it h he => stepGen_existing S st it h he,
    fun σ S st it h he => ?_,
    fun σ S items st => ⟨rfl, runGen_total S items st, runGen_sum S items st⟩,
    fun p items => rfl⟩
  by_cases hu : (S.upsert st.1 it).2 = true
  · rw [stepGen_new S st it h he hu, if_pos hu]
  · have hu2 : (S.upsert st.1 it).2 = false := Bool.not_eq_true _ ▸ hu
    rw [stepGen_fail S st it h he hu2, if_neg hu]

lemma keepCore_error {c : Card} {e : String} (h : parseSingleItemCore c = .error e) :
    keepCore c = none := by
  simp [keepCore, h]

lemma parse_single_item_error {now : String} {c : Card} {e : String}
    (h : parse_single_item now c = .error e) : parseSingleItemCore c = .error e := by
  unfold parse_single_item at h
  cases hc : parseSingleItemCore c with
  | ok it => rw [hc] at h; exact absurd h (by simp [Except.map])
  | error f => rw [hc] at h; simpa [Except.map] using h

/-- C2. Extraction is total (the model's `parse_html` is a function into
lists, mirroring that every per-card fault is absorbed by the `except` in
`parse_single_item`): every returned record comes from a card whose
extraction succeeded, and a card whose extraction raises contributes nothing
while the cards before and after it are processed normally — one faulty card
never aborts the page. -/
theorem extract_absorbs_card_faults :
    (∀ (now : String) (m : Markup) (it : AvitoItem),
      it ∈ parse_html now m →
        ∃ c ∈ selectedCards m, parse_single_item now c = .ok it) ∧
    (∀ (now : String) (m : Markup) (pre post : List Card) (c : Card) (e : String),
      selectedCards m = pre ++ c :: post →
      parse_single_item now c = .error e →
      parse_html now m =
        (pre.filterMap keepCore ++ post.filterMap keepCore).map
          (fun it => { it with parsed_date := now })) := by
  constructor
  · intro now m it hmem
    unfold parse_html at hmem
    obtain ⟨it0, h0, rfl⟩ := List.mem_map.mp hmem
    unfold parseHtmlCore at h0
    obtain ⟨c, hc, hk⟩ := List.mem_filterMap.mp h0
    refine ⟨c, hc, ?_⟩
    unfold keepCore at hk
    cases hcore : parseSingleItemCore c with
    | error f => rw [hcore] at hk; exact absurd hk (by simp)
    | ok it1 =>
      rw [hcore] at hk
      dsimp only at hk
      by_cases ht : it1.title = ""
      · rw [if_pos ht] at hk; exact absurd hk (by simp)
      · rw [if_neg ht] at hk
        obtain rfl := Option.some.inj hk
        simp [parse_single_item, hcore, Except.map]
  · intro now m pre post c e hsel herr
    unfold parse_html parseHtmlCore
    rw [hsel, List.filterMap_append, List.filterMap_cons,
      keepCore_error (parse_single_item_error herr)]

/-- Witness card: a valid first listing. -/
def wCardA : Card :=
  { titleQ := (fun s => if s = "[data-marker=\"item-title\"]" then some (.ok "Квартира А")
      else none),
    linkQ := fun s => if s = "a.link-link" then some { href := some "/ufa/kvartiry/a" }
      else none }

/-- Witness card whose card text matches the group-less pattern
`r'% комиссии'`, so `parse_tax` raises `IndexError` out of `match.group(1)`
and the card is dropped. -/
def wCardFaulty : Card :=
  { titleQ := (fun s => if s = "h3 a" then some (.ok "Битая карточка") else none),
    cardText := .ok "% комиссии" }

/-- Witness card: a valid last listing. -/
def wCardB : Card :=
  { titleQ := (fun s => if s = ".title-root" then some (.ok "Квартира Б") else none),
    linkQ := fun s => if s = "a.link-link" then some { href := some "/ufa/kvartiry/b" }
      else none }

/-- Witness markup: one page whose middle card raises during field
extraction. -/
def wMarkupFaulty : Markup :=
  ⟨fun s => if s = "[data-marker=\"item\"]" then [wCardA, wCardFaulty, wCardB] else []⟩

/-- Witness for C2: on a concrete page whose middle card raises inside
`parse_tax`, extraction returns exactly the two healthy records. -/
theorem extract_absorbs_card_faults_witness :
    parse_single_item "d" wCardFaulty = .error "IndexError: no such group" ∧
    parse_html "d" wMarkupFaulty =
      ([wCardA].filterMap keepCore ++ [wCardB].filterMap keepCore).map
        (fun it => { it with parsed_date := "d" }) ∧
    (parse_html "d" wMarkupFaulty).map AvitoItem.title = ["Квартира А", "Квартира Б"] :=
  ⟨rfl,
    extract_absorbs_card_faults.2 "d" wMarkupFaulty [wCardA] [wCardB] wCardFaulty
      "IndexError: no such group" rfl rfl,
    by rfl⟩

lemma firstPrice_ok_nonempty {c : Card} :
    ∀ sels (p : String), firstPrice c sels = .ok p → p ≠ "" → hasCurrency p = true := by
  intro sels
  induction sels with
  | nil =>
    intro p hp hne
    exact absurd (Except.ok.inj hp).symm hne
  | cons s rest ih =>
    intro p hp hne
    unfold firstPrice at hp
    cases hq : c.priceQ s with
    | none => rw [hq] at hp; exact ih p hp hne
    | some r =>
      cases r with
      | error e => rw [hq] at hp; exact absurd hp (by simp)
      | ok t0 =>
        rw [hq] at hp
        dsimp only at hp
        by_cases hc : hasCurrency (collapseWs t0) = true
        · rw [if_pos hc] at hp
          rw [← Except.ok.inj hp]
          exact hc
        · rw [if_neg hc] at hp
          exact ih p hp hne

lemma firstPrice_all_rejected {c : Card} :
    ∀ sels,
      (∀ s ∈ sels, ∀ r, c.priceQ s = some r →
        ∃ t, r = .ok t ∧ hasCurrency (collapseWs t) = false) →
      firstPrice c sels = .ok "" := by
  intro sels
  induction sels with
  | nil => intro _; rfl
  | cons s rest ih =>
    intro h
    unfold firstPrice
    cases hq : c.priceQ s with
    | none => exact ih fun s hs => h s (List.mem_cons_of_mem _ hs)
    | some r =>
      obtain ⟨t, rfl, hcur⟩ := h s (List.mem_cons_self s rest) r hq
      dsimp only
      rw [if_neg (by rw [hcur]; exact Bool.false_ne_true)]
      exact ih fun s hs => h s (List.mem_cons_of_mem _ hs)

/-- Witness card whose only price element reads "Цена по запросу": the text
carries no currency marker, so no selector is accepted. -/
def wCardNoCurrency : Card :=
  { priceQ := fun s => if s = "[data-marker=\"item-price\"]" then
      some (.ok "Цена по запросу") else none }

/-- Witness card whose first price selector matches uncurrencied text and
whose second selector matches a proper price (with doubled whitespace, to be
collapsed). -/
def wCardSecondSelector : Card :=
  { priceQ := fun s =>
      if s = "[data-marker=\"item-price\"]" then some (.ok "Цена по запросу")
      else if s = ".price-price" then some (.ok "10 000  ₽ в месяц")
      else none }

/-- C9. Price extraction accepts a selector match only when the
whitespace-collapsed element text contains the currency symbol or the local
currency word (case-insensitively, via `hasCurrency`); a rejected text sends
the loop to the next selector; when nothing is accepted the price is `""` —
in particular a card whose price element reads "Цена по запросу" yields an
empty price, while a currencied text behind a rejected first selector is
returned collapsed. -/
theorem price_accepts_only_currency :
    (∀ (c : Card) (p : String), parse_price c = .ok p → p ≠ "" → hasCurrency p = true) ∧
    (∀ c : Card,
      (∀ s ∈ price_selectors, ∀ r, c.priceQ s = some r →
        ∃ t, r = .ok t ∧ hasCurrency (collapseWs t) = false) →
      parse_price c = .ok "") ∧
    parse_price wCardNoCurrency = .ok "" ∧
    hasCurrency "Цена по запросу" = false ∧
    parse_price wCardSecondSelector = .ok "10 000 ₽ в месяц" := by
  refine ⟨fun c p hp hne => firstPrice_ok_nonempty price_selectors p hp hne,
    fun c h => firstPrice_all_rejected price_selectors h, by rfl, by decide, by rfl⟩

/-- Witness for C9: the accepted second-selector price does carry a currency
marker, and the currencyless card concretely yields an empty price. -/
theorem price_accepts_only_currency_witness :
    hasCurrency "10 000 ₽ в месяц" = true ∧ parse_price wCardNoCurrency = .ok "" := by
  constructor
  · exact price_accepts_only_currency.1 wCardSecondSelector "10 000 ₽ в месяц"
      (by rfl) (by decide)
  · refine price_accepts_only_currency.2.1 wCardNoCurrency ?_
    intro s hs r hr
    fin_cases hs <;> simp [wCardNoCurrency] at hr
    exact ⟨"Цена по запросу", by rw [hr], by decide⟩

lemma imgStep_inv {images : List String} {it : CarouselItem} (himg : it.img.isSome)
    (h1 : ∀ u ∈ images, startsWithStr u "http" = true) (h2 : images.Nodup) :
    (∀ u ∈ imgStep images it, startsWithStr u "http" = true) ∧ (imgStep images it).Nodup := by
  obtain ⟨img, hi⟩ := Option.isSome_iff_exists.mp himg
  unfold imgStep
  rw [hi]
  by_cases hlen : images.length ≥ 3
  · rw [if_pos hlen]; exact ⟨h1, h2⟩
  · rw [if_neg hlen]
    dsimp only
    cases ht : truthy (pyAttrOr img.src img.dataSrc) with
    | none => exact ⟨h1, h2⟩
    | some src0 =>
      dsimp only
      by_cases hcond :
          (startsWithStr (normUrl src0) "http" && !images.contains (normUrl src0)) = true
      · rw [if_pos hcond]
        obtain ⟨hhttp, hnm⟩ := Bool.and_eq_true_iff.mp hcond
        have hnotmem : normUrl src0 ∉ images := by simpa using hnm
        constructor
        · intro u hu
          rcases List.mem_append.mp hu with hu | hu
          · exact h1 u hu
          · rw [List.mem_singleton.mp hu]; exact hhttp
        · exact List.nodup_append.mpr ⟨h2, List.nodup_singleton _,
            fun x hx hx2 => hnotmem (List.mem_singleton.mp hx2 ▸ hx)⟩
      · rw [if_neg hcond]; exact ⟨h1, h2⟩

lemma foldl_imgStep_inv (items : List CarouselItem) :
    ∀ images, (∀ it ∈ items, it.img.isSome) →
      (∀ u ∈ images, startsWithStr u "http" = true) → images.Nodup →
      (∀ u ∈ List.foldl imgStep images items, startsWithStr u "http" = true) ∧
        (List.foldl imgStep images items).Nodup := by
  induction items with
  | nil => intro images _ h1 h2; exact ⟨h1, h2⟩
  | cons it rest ih =>
    intro images hsome h1 h2
    have hstep := imgStep_inv (hsome it (List.mem_cons_self _ _)) h1 h2
    exact ih _ (fun x hx => hsome x (List.mem_cons_of_mem _ hx)) hstep.1 hstep.2

lemma foldl_carousel_inv (c : Card) (sels : List String) :
    ∀ images, (∀ s ∈ sels, ∀ it ∈ c.carouselQ s, it.img.isSome) →
      (∀ u ∈ images, startsWithStr u "http" = true) → images.Nodup →
      (∀ u ∈ List.foldl (fun acc s => (c.carouselQ s).foldl imgStep acc) images sels,
        startsWithStr u "http" = true) ∧
      (List.foldl (fun acc s => (c.carouselQ s).foldl imgStep acc) images sels).Nodup := by
  induction sels with
  | nil => intro images _ h1 h2; exact ⟨h1, h2⟩
  | cons s rest ih =>
    intro images hsome h1 h2
    have hstep := foldl_imgStep_inv (c.carouselQ s) images
      (hsome s (List.mem_cons_self _ _)) h1 h2
    exact ih _ (fun x hx => hsome x (List.mem_cons_of_mem _ hx)) hstep.1 hstep.2

/-- Witness card whose carousel images all come through the inner-img branch:
a protocol-relative and a root-relative source. -/
def wCardImgOnly : Card :=
  { carouselQ := fun s =>
      if s = ".photo-slider-item-mbNB3" then
        [ { img := some ({ src := some "//img1" } : ImgElem) },
          { img := some ({ src := some "/img2" } : ImgElem) } ]
      else [] }

/-- C3 (amended). Every record's `images` has length at most 3, and when all
carousel sources come through the inner-img branch (every carousel element
carries an `<img>`, the fallback finds nothing), the collected URLs all start
with `http` and are pairwise distinct.  The unamended claim fails: the
`data-marker` branch appends without the `http` check and deduplicates
against the pre-normalisation string (see the counterexample). -/
lemma core_ok_images {c : Card} {it : AvitoItem} (h : parseSingleItemCore c = .ok it) :
    it.images = parse_images c := by
  revert h
  unfold parseSingleItemCore
  cases parse_title c <;> cases parse_price c <;> cases parse_bail c <;>
    cases parse_tax c <;> cases parse_services c <;> cases parse_address c <;>
    cases parse_description c <;>
    simp only [bind, Except.bind, pure] <;> intro h <;> cases h <;> rfl

theorem images_bounded_amended :
    (∀ c : Card, (parse_images c).length ≤ 3) ∧
    (∀ (now : String) (m : Markup) (it : AvitoItem),
      it ∈ parse_html now m → it.images.length ≤ 3) ∧
    (∀ c : Card,
      (∀ s ∈ carousel_selectors, ∀ it ∈ c.carouselQ s, it.img.isSome) →
      c.fallbackImgs = [] →
      (∀ u ∈ parse_images c, startsWithStr u "http" = true) ∧ (parse_images c).Nodup) := by
  refine ⟨?_, ?_, ?_⟩
  · intro c
    unfold parse_images
    exact List.length_take_le 3 _
  · intro now m it hmem
    unfold parse_html at hmem
    obtain ⟨it0, h0, rfl⟩ := List.mem_map.mp hmem
    unfold parseHtmlCore at h0
    obtain ⟨c, _, hk⟩ := List.mem_filterMap.mp h0
    unfold keepCore at hk
    cases hcore : parseSingleItemCore c with
    | error e => rw [hcore] at hk; exact absurd hk (by simp)
    | ok it1 =>
      rw [hcore] at hk
      dsimp only at hk
      by_cases ht : it1.title = ""
      · rw [if_pos ht] at hk; exact absurd hk (by simp)
      · rw [if_neg ht] at hk
        obtain rfl := Option.some.inj hk
        show it1.images.length ≤ 3
        rw [core_ok_images hcore]
        unfold parse_images
        exact List.length_take_le 3 _
  · intro c hsome hfb
    unfold parse_images
    rw [hfb]
    simp only [List.foldl_nil, ite_self]
    have base := foldl_carousel_inv c carousel_selectors [] hsome (by simp) List.nodup_nil
    constructor
    · intro u hu
      exact base.1 u ((List.take_sublist 3 _).subset hu)
    · exact base.2.sublist (List.take_sublist 3 _)

/-- Witness for C3 (amended): a concrete all-img-branch card obeys the bound,
yields `http`-prefixed URLs and no duplicates. -/
theorem images_bounded_amended_witness :
    (parse_images wCardImgOnly).length ≤ 3 ∧
    startsWithStr "https://www.avito.ru/img2" "http" = true ∧
    (parse_images wCardImgOnly).Nodup := by
  refine ⟨images_bounded_amended.1 wCardImgOnly, ?_,
    (images_bounded_amended.2.2 wCardImgOnly (by decide) rfl).2⟩
  exact (images_bounded_amended.2.2 wCardImgOnly (by decide) rfl).1
    "https://www.avito.ru/img2" (by decide)

/-- Witness card for the C3 counterexample: one carousel `<img>` with a
protocol-relative source, then two img-less carousel elements whose
`data-marker` values repeat that source and add a root-relative one. -/
def wCardImages : Card :=
  { titleQ := (fun s => if s = "[data-marker=\"item-title\"]" then
      some (.ok "С картинками") else none),
    carouselQ := fun s =>
      if s = ".photo-slider-list-item-r2YDC" then
        [ { img := some ({ src := some "//x" } : ImgElem) },
          { dataMarker := "slider-image/image-//x" },
          { dataMarker := "slider-image/image-/foo" } ]
      else [] }

/-- Witness markup around `wCardImages`. -/
def wMarkupImages : Markup :=
  ⟨fun s => if s = "[data-marker=\"item\"]" then [wCardImages] else []⟩

/-- Counterexample to C3 as stated: a returned record whose `images` holds a
duplicate entry and a root-relative (non-http) URL.  The duplicate arises
because the `data-marker` branch deduplicates `//x` before normalising it to
`https://x`; the relative `/foo` survives because that branch performs no
`http` check. -/
theorem images_claim_counterexample :
    (parse_html "d" wMarkupImages).map AvitoItem.images = [["https://x", "https://x", "/foo"]] ∧
    ¬ (["https://x", "https://x", "/foo"] : List String).Nodup ∧
    startsWithStr "/foo" "http" = false :=
  ⟨by rfl, by decide, by rfl⟩

lemma save_filter_link (db : AvitoDatabase) (it : AvitoItem) :
    ((save_apartment db it).1.rows.filter (fun r => r.link == it.link))
      = [mkRow db.nextId it] := by
  simp [save_apartment, mkRow, List.filter_append, List.filter_filter, bne]

lemma exists_save_self (db : AvitoDatabase) (it : AvitoItem) :
    apartment_exists (save_apartment db it).1 it.link = true := by
  simp [apartment_exists, save_apartment, mkRow]

lemma exists_mono_save (db : AvitoDatabase) (it : AvitoItem) (l : String)
    (h : apartment_exists db l = true) :
    apartment_exists (save_apartment db it).1 l = true := by
  unfold apartment_exists at h ⊢
  obtain ⟨r, hr, hb⟩ := List.any_eq_true.mp h
  unfold save_apartment
  dsimp only
  rw [List.any_eq_true]
  by_cases hl : r.link = it.link
  · exact ⟨mkRow db.nextId it, by simp, by simp only [mkRow]; exact hl ▸ hb⟩
  · refine ⟨r, List.mem_append_left _ ?_, hb⟩
    rw [List.mem_filter]
    exact ⟨hr, by simp [bne, hl]⟩

/-- C8. Upsert-by-link fully replaces prior field values: persisting record A
with link L and then record B with the same link leaves exactly one row for
L, and that row is B's row in every column — in particular it carries B's
title. -/
theorem upsert_replaces_fully (db : AvitoDatabase) (A B : AvitoItem) (L : String)
    (_hA : A.link = L) (hB : B.link = L) :
    ((save_apartment (save_apartment db A).1 B).1.rows.filter (fun r => r.link == L))
        = [mkRow (save_apartment db A).1.nextId B] ∧
    (mkRow (save_apartment db A).1.nextId B).title = B.title := by
  constructor
  · rw [← hB]; exact save_filter_link (save_apartment db A).1 B
  · rfl

/-- Witness record A for the store claims. -/
def wItemA : AvitoItem := { title := "a", link := "L" }

/-- Witness record B: same link as `wItemA`, different title. -/
def wItemB : AvitoItem := { title := "b", link := "L" }

/-- Witness for C8 on a fresh store: after storing A then B under link "L",
the store holds exactly B's row for "L" (with id 2), titled "b". -/
theorem upsert_replaces_fully_witness :
    ((save_apartment (save_apartment init_database wItemA).1 wItemB).1.rows.filter
        (fun r => r.link == "L"))
      = [mkRow (save_apartment init_database wItemA).1.nextId wItemB] ∧
    (mkRow (save_apartment init_database wItemA).1.nextId wItemB).title = "b" ∧
    (save_apartment init_database wItemA).1.nextId = 2 :=
  ⟨(upsert_replaces_fully init_database wItemA wItemB "L" rfl rfl).1,
   (upsert_replaces_fully init_database wItemA wItemB "L" rfl rfl).2, rfl⟩

/-- C7 (amended). When one page yields two records with the same nonempty
link that is new to the store, the run loop persists the FIRST record and
counts the second as `existing_items` without touching the store: the store
ends with exactly one row for that link, carrying the first record's field
values (the uniqueness-by-link is enforced by the exists-check of the run
loop together with the store's upsert). -/
theorem duplicate_link_first_record_wins (p : AvitoProcessor) (A B : AvitoItem) (L : String)
    (hA : A.link = L) (hB : B.link = L) (hL : L ≠ "")
    (hnew : apartment_exists p.db L = false) :
    ((process_items p [A, B]).1.db.rows.filter (fun r => r.link == L))
        = [mkRow p.db.nextId A] ∧
    (process_items p [A, B]).1.db = (save_apartment p.db A).1 ∧
    (process_items p [A, B]).2.new_items = p.stats.new_items + 1 ∧
    (process_items p [A, B]).2.existing_items = p.stats.existing_items + 1 := by
  have hA1 : A.link ≠ "" := by rw [hA]; exact hL
  have hAe : dbOps.existsLink (p.db, p.stats).1 A.link = false := by
    show apartment_exists p.db A.link = false
    rw [hA]; exact hnew
  have h1 : stepGen dbOps (p.db, p.stats) A =
      ((save_apartment p.db A).1,
        { p.stats with total_processed := p.stats.total_processed + 1,
                       new_items := p.stats.new_items + 1 }) := by
    rw [stepGen_new dbOps (p.db, p.stats) A hA1 hAe rfl]
    rfl
  have hB1 : B.link ≠ "" := by rw [hB]; exact hL
  have hBe : dbOps.existsLink ((save_apartment p.db A).1,
      { p.stats with total_processed := p.stats.total_processed + 1,
                     new_items := p.stats.new_items + 1 }).1 B.link = true := by
    show apartment_exists (save_apartment p.db A).1 B.link = true
    rw [hB, ← hA]; exact exists_save_self p.db A
  have h3 : stepGen dbOps
      ((save_apartment p.db A).1,
        { p.stats with total_processed := p.stats.total_processed + 1,
                       new_items := p.stats.new_items + 1 }) B =
      ((save_apartment p.db A).1,
        { p.stats with total_processed := p.stats.total_processed + 2,
                       new_items := p.stats.new_items + 1,
                       existing_items := p.stats.existing_items + 1 }) := by
    rw [stepGen_existing dbOps _ B hB1 hBe]
  have hrun : runGen dbOps [A, B] (p.db, p.stats) =
      ((save_apartment p.db A).1,
        { p.stats with total_processed := p.stats.total_processed + 2,
                       new_items := p.stats.new_items + 1,
                       existing_items := p.stats.existing_items + 1 }) := by
    rw [runGen_cons, h1, runGen_cons, h3, runGen_nil]
  unfold process_items
  rw [hrun]
  exact ⟨by rw [← hA]; exact save_filter_link p.db A, rfl, rfl, rfl⟩

/-- Witness for C7 (amended) on a fresh processor and the records
`wItemA`/`wItemB`. -/
theorem duplicate_link_first_record_wins_witness :
    ((process_items setup_avito_processor [wItemA, wItemB]).1.db.rows.filter
        (fun r => r.link == "L")) = [mkRow 1 wItemA] ∧
    (process_items setup_avito_processor [wItemA, wItemB]).2.new_items = 1 ∧
    (process_items setup_avito_processor [wItemA, wItemB]).2.existing_items = 1 := by
  have h := duplicate_link_first_record_wins setup_avito_processor wItemA wItemB "L"
    rfl rfl (by decide) rfl
  exact ⟨h.1, h.2.2.1, h.2.2.2⟩

/-- Witness card with title "a" and link "L". -/
def wCardDupA : Card :=
  { titleQ := (fun s => if s = ".title-root" then some (.ok "a") else none),
    linkQ := fun s => if s = "a.link-link" then some { href := some "L" } else none }

/-- Witness card with title "b" and the same link "L". -/
def wCardDupB : Card :=
  { titleQ := (fun s => if s = ".title-root" then some (.ok "b") else none),
    linkQ := fun s => if s = "a.link-link" then some { href := some "L" } else none }

/-- Witness markup: one page with two same-link cards. -/
def wMarkupDup : Markup :=
  ⟨fun s => if s = ".iva-item-root" then [wCardDupA, wCardDupB] else []⟩

/-- Counterexample to C7 as stated: processing a page with two same-link
records leaves the FIRST record's title in the store, not the later one — the
second record hits the exists-check and is skipped as `existing_items`. -/
theorem duplicate_link_claim_counterexample :
    ((process_html setup_avito_processor "d" wMarkupDup).1.db.rows.map Row.title) = ["a"] ∧
    ("a" : String) ≠ "b" ∧
    (process_html setup_avito_processor "d" wMarkupDup).2.existing_items = 1 :=
  ⟨by rfl, by decide, by rfl⟩

/-- C6 (amended). For every store state and every k, `get_recent_items`
returns at most k summaries, ordered by the stored `parsed_date` descending
(NOT by the synthetic identity — see the counterexample), each summary built
from a stored row and so carrying its title, price, address, image count and
link. -/
theorem recent_is_date_ordered (db : AvitoDatabase) (k : Nat) :
    (get_recent_items db k).length ≤ k ∧
    List.Pairwise (fun x y : Summary => strLeB y.parsed_date.data x.parsed_date.data = true)
      (get_recent_items db k) ∧
    ∀ s ∈ get_recent_items db k, ∃ r ∈ db.rows, s = mkSummary r := by
  refine ⟨?_, ?_, ?_⟩
  · unfold get_recent_items
    rw [List.length_map]
    exact List.length_take_le k _
  · unfold get_recent_items
    refine List.Pairwise.map mkSummary (fun a b hab => hab) ?_
    exact (List.sorted_insertionSort dateGe db.rows).sublist (List.take_sublist k _)
  · intro s hs
    unfold get_recent_items at hs
    obtain ⟨r, hr, rfl⟩ := List.mem_map.mp hs
    exact ⟨r, (List.perm_insertionSort dateGe db.rows).subset
      ((List.take_sublist k _).subset hr), rfl⟩

/-- Witness row: inserted first (id 1) but parsed later. -/
def wRowD1 : Row :=
  { id := 1, title := "t", price := "", bail := "", tax := "", services := "",
    address := "", desc := "", images := [], link := "A", parsed_date := "2025-01-02" }

/-- Witness row: inserted second (id 2) but parsed earlier. -/
def wRowD2 : Row :=
  { id := 2, title := "u", price := "", bail := "", tax := "", services := "",
    address := "", desc := "", images := [], link := "B", parsed_date := "2025-01-01" }

/-- Witness store with the two date-skewed rows. -/
def wDbDates : AvitoDatabase := { rows := [wRowD1, wRowD2], nextId := 3 }

/-- Counterexample to C6 as stated: `get_recent_items` orders by
`parsed_date DESC`, not by the synthetic id descending — on a store where the
older id carries the newer parse date, the id-1 row comes first, so the order
is not most-recently-inserted (id descending). -/
theorem recent_order_counterexample :
    (get_recent_items wDbDates 2).map Summary.link = ["A", "B"] ∧
    wRowD1.link = "A" ∧ wRowD2.link = "B" ∧ wRowD1.id < wRowD2.id ∧
    (["A", "B"] : List String) ≠ ["B", "A"] :=
  ⟨by rfl, rfl, rfl, by decide, by decide⟩

/-- Witness for C6 (amended): on the concrete store, at most 2 summaries come
back and the first summary is built from a stored row. -/
theorem recent_is_date_ordered_witness :
    (get_recent_items wDbDates 2).length ≤ 2 ∧
    (∃ r ∈ wDbDates.rows, mkSummary wRowD1 = mkSummary r) := by
  have h := recent_is_date_ordered wDbDates 2
  exact ⟨h.1, h.2.2 (mkSummary wRowD1) (by decide)⟩

lemma insertionSort_head_of_max (l : List Row) (r : Row) (hmem : r ∈ l)
    (hmax : ∀ x ∈ l, x ≠ r → x.id < r.id) :
    (List.insertionSort idGe l).head? = some r := by
  have hperm := List.perm_insertionSort idGe l
  have hsorted := List.sorted_insertionSort idGe l
  cases hsort : List.insertionSort idGe l with
  | nil =>
    rw [hsort] at hperm
    rw [List.nil_perm.mp hperm] at hmem
    exact absurd hmem (List.not_mem_nil r)
  | cons h t =>
    rw [hsort] at hperm hsorted
    by_cases hhr : h = r
    · rw [hhr]; rfl
    · exfalso
      have hrt : r ∈ t :=
        (List.mem_cons.mp (hperm.symm.subset hmem)).resolve_left fun he => hhr he.symm
      have h1 : r.id ≤ h.id := (List.pairwise_cons.mp hsorted).1 r hrt
      have h2 : h.id < r.id := hmax h (hperm.subset (List.mem_cons_self h t)) hhr
      omega

/-- C10 (amended). `save_apartment` on a record whose link already identifies
a row deletes that row and inserts a fresh row under a strictly larger
AUTOINCREMENT id — larger than every id in the store — so the replaced record
changes identity and moves to the front of the id-descending orderings (the
bot's journal page, `get_recent_objects`).  It does NOT in general move to
the front of `get_recent_items`, which orders by `parsed_date` (see the
counterexample). -/
theorem replace_bumps_identity (db : AvitoDatabase) (item : AvitoItem) (r : Row)
    (hwf : dbWF db) (hr : r ∈ db.rows) (hlink : r.link = item.link) :
    r.id < db.nextId ∧
    mkRow db.nextId item ∈ (save_apartment db item).1.rows ∧
    r ∉ (save_apartment db item).1.rows ∧
    ((save_apartment db item).1.rows.filter (fun x => x.link == item.link))
        = [mkRow db.nextId item] ∧
    (∀ x ∈ (save_apartment db item).1.rows, x ≠ mkRow db.nextId item → x.id < db.nextId) ∧
    (List.insertionSort idGe (save_apartment db item).1.rows).head?
        = some (mkRow db.nextId item) ∧
    (∀ k, 1 ≤ k →
      (get_recent_objects (save_apartment db item).1 0 k).head?
          = some (mkBotObj (mkRow db.nextId item))) := by
  have hidr : r.id < db.nextId := hwf r hr
  have hmem : mkRow db.nextId item ∈ (save_apartment db item).1.rows := by
    unfold save_apartment
    exact List.mem_append_right _ (List.mem_singleton_self _)
  have hbound : ∀ x ∈ (save_apartment db item).1.rows,
      x ≠ mkRow db.nextId item → x.id < db.nextId := by
    intro x hx hne
    unfold save_apartment at hx
    rcases List.mem_append.mp hx with hx | hx
    · exact hwf x (List.mem_filter.mp hx).1
    · exact absurd (List.mem_singleton.mp hx) hne
  have hnotmem : r ∉ (save_apartment db item).1.rows := by
    intro hrin
    unfold save_apartment at hrin
    rcases List.mem_append.mp hrin with hx | hx
    · have := (List.mem_filter.mp hx).2
      rw [hlink] at this
      simp [bne] at this
    · have : r.id = db.nextId := congrArg Row.id (List.mem_singleton.mp hx)
      omega
  have hhead : (List.insertionSort idGe (save_apartment db item).1.rows).head?
      = some (mkRow db.nextId item) :=
    insertionSort_head_of_max _ _ hmem hbound
  refine ⟨hidr, hmem, hnotmem, save_filter_link db item, hbound, hhead, ?_⟩
  intro k hk
  unfold get_recent_objects
  rw [List.drop_zero]
  cases hs : List.insertionSort idGe (save_apartment db item).1.rows with
  | nil => rw [hs] at hhead; exact absurd hhead (by simp)
  | cons h t =>
    rw [hs] at hhead
    obtain rfl : h = mkRow db.nextId item := Option.some.inj hhead
    cases k with
    | zero => omega
    | succ k2 => rfl

/-- Witness row replaced in the C10 scenarios: link "A", parsed early-notably
it carries a date older than the other row's. -/
def wRow10A : Row :=
  { id := 1, title := "t", price := "", bail := "", tax := "", services := "",
    address := "", desc := "", images := [], link := "A", parsed_date := "2025-01-05" }

/-- Witness row that stays: link "B", latest parse date in the store. -/
def wRow10B : Row :=
  { id := 2, title := "u", price := "", bail := "", tax := "", services := "",
    address := "", desc := "", images := [], link := "B", parsed_date := "2025-01-09" }

/-- Witness store holding both rows, AUTOINCREMENT at 3. -/
def wDb10 : AvitoDatabase := { rows := [wRow10A, wRow10B], nextId := 3 }

/-- Witness record re-scraped for link "A" with an even older parse date. -/
def wItem10 : AvitoItem := { title := "t2", link := "A", parsed_date := "2025-01-01" }

/-- Witness for C10 (amended): concretely, the replacement row (id 3) is in
the store, heads the id-descending order and heads the bot's journal page. -/
theorem replace_bumps_identity_witness :
    mkRow 3 wItem10 ∈ (save_apartment wDb10 wItem10).1.rows ∧
    (List.insertionSort idGe (save_apartment wDb10 wItem10).1.rows).head?
        = some (mkRow 3 wItem10) ∧
    (get_recent_objects (save_apartment wDb10 wItem10).1 0 5).head?
        = some (mkBotObj (mkRow 3 wItem10)) := by
  have h := replace_bumps_identity wDb10 wItem10 wRow10A (by unfold dbWF; decide)
    (by decide) rfl
  exact ⟨h.2.1, h.2.2.2.2.2.1, h.2.2.2.2.2.2 5 (by decide)⟩

/-- Counterexample to C10 as stated: after the replace, the fresh row has the
strictly larger id 3, yet `get_recent_items` (named by the claim as an
identity-descending ordering) is ordered by `parsed_date` and does NOT put
the replaced record first. -/
theorem replace_recent_counterexample :
    ((save_apartment wDb10 wItem10).1.rows.map Row.id) = [2, 3] ∧
    ((get_recent_items (save_apartment wDb10 wItem10).1 2).map Summary.link) = ["B", "A"] ∧
    (get_recent_items (save_apartment wDb10 wItem10).1 2).head?
        ≠ some (mkSummary (mkRow 3 wItem10)) :=
  ⟨by rfl, by rfl, by decide⟩

lemma runGen_preserves_exists (items : List AvitoItem) :
    ∀ (db : AvitoDatabase) (s : Stats) (l : String),
      apartment_exists db l = true →
      apartment_exists (runGen dbOps items (db, s)).1 l = true := by
  induction items with
  | nil => intro db s l h; exact h
  | cons it rest ih =>
    intro db s l h
    rw [runGen_cons]
    by_cases h1 : it.link = ""
    · rw [stepGen_empty dbOps (db, s) it h1]; exact ih db _ l h
    · by_cases h2 : apartment_exists db it.link = true
      · rw [stepGen_existing dbOps (db, s) it h1 h2]; exact ih db _ l h
      · have h2f : apartment_exists db it.link = false := Bool.not_eq_true _ ▸ h2
        rw [stepGen_new dbOps (db, s) it h1 h2f rfl]
        exact ih _ _ l (exists_mono_save db it l h)

lemma runGen_establishes (items : List AvitoItem) :
    ∀ (db : AvitoDatabase) (s : Stats) (it : AvitoItem), it ∈ items → it.link ≠ "" →
      apartment_exists (runGen dbOps items (db, s)).1 it.link = true := by
  induction items with
  | nil => intro db s it h _; exact absurd h (List.not_mem_nil it)
  | cons x rest ih =>
    intro db s it hmem hne
    rw [runGen_cons]
    rcases List.mem_cons.mp hmem with rfl | hmem2
    · by_cases h2 : apartment_exists db it.link = true
      · rw [stepGen_existing dbOps (db, s) it hne h2]
        exact runGen_preserves_exists rest db _ it.link h2
      · have h2f : apartment_exists db it.link = false := Bool.not_eq_true _ ▸ h2
        rw [stepGen_new dbOps (db, s) it hne h2f rfl]
        exact runGen_preserves_exists rest _ _ it.link (exists_save_self db it)
    · exact ih (stepGen dbOps (db, s) x).1 (stepGen dbOps (db, s) x).2 it hmem2 hne

lemma runGen_all_existing (items : List AvitoItem) :
    ∀ (db : AvitoDatabase) (s : Stats),
      (∀ it ∈ items, it.link ≠ "" → apartment_exists db it.link = true) →
      (runGen dbOps items (db, s)).1 = db ∧
      (runGen dbOps items (db, s)).2.new_items = s.new_items ∧
      (runGen dbOps items (db, s)).2.existing_items
          = s.existing_items + nonemptyLinkCount items ∧
      (runGen dbOps items (db, s)).2.errors = s.errors + emptyLinkCount items ∧
      (runGen dbOps items (db, s)).2.total_processed
          = s.total_processed + items.length := by
  induction items with
  | nil =>
    intro db s _
    exact ⟨rfl, rfl, rfl, rfl, rfl⟩
  | cons it rest ih =>
    intro db s h
    have hcons : ∀ x ∈ rest, x.link ≠ "" → apartment_exists db x.link = true :=
      fun x hx => h x (List.mem_cons_of_mem _ hx)
    rw [runGen_cons]
    by_cases h1 : it.link = ""
    · rw [stepGen_empty dbOps (db, s) it h1]
      obtain ⟨hdb2, hnew2, hex2, herr2, htot2⟩ := ih db
        { s with total_processed := s.total_processed + 1, errors := s.errors + 1 } hcons
      have he : emptyLinkCount (it :: rest) = emptyLinkCount rest + 1 := by
        simp [emptyLinkCount, List.filter_cons, h1]
      have hn : nonemptyLinkCount (it :: rest) = nonemptyLinkCount rest := by
        simp [nonemptyLinkCount, List.filter_cons, h1]
      refine ⟨hdb2, ?_, ?_, ?_, ?_⟩
      · rw [hnew2]
      · rw [hex2, hn]
      · rw [herr2, he]; dsimp only; omega
      · rw [htot2, List.length_cons]; dsimp only; omega
    · have h2 : apartment_exists db it.link = true := h it (List.mem_cons_self _ _) h1
      rw [stepGen_existing dbOps (db, s) it h1 h2]
      obtain ⟨hdb2, hnew2, hex2, herr2, htot2⟩ := ih db
        { s with total_processed := s.total_processed + 1,
                 existing_items := s.existing_items + 1 } hcons
      have he : emptyLinkCount (it :: rest) = emptyLinkCount rest := by
        simp [emptyLinkCount, List.filter_cons, h1]
      have hn : nonemptyLinkCount (it :: rest) = nonemptyLinkCount rest + 1 := by
        simp [nonemptyLinkCount, List.filter_cons, h1]
      refine ⟨hdb2, ?_, ?_, ?_, ?_⟩
      · rw [hnew2]
      · rw [hex2, hn]; dsimp only; omega
      · rw [herr2, he]
      · rw [htot2, List.length_cons]; dsimp only; omega

/-- C4 (amended). Running `process_html` twice on identical markup against
the same store leaves the second run with no new items: the second run's
DELTAS are `new_items` +0, `existing_items` + (records with nonempty link),
`errors` + (records with empty link), `total_processed` + (record count), and
the store is untouched.  The literal claim fails because the counters
accumulate across passes instead of being reset (see the counterexample): in
the concrete 5-record scenario run 2 returns
`{totalProcessed 10, newItems 5, existingItems 5, errors 0}`, not
`{5, 0, 5, 0}`. -/
theorem second_run_adds_nothing_new (m : Markup) (now1 now2 : String) (p : AvitoProcessor) :
    (process_html (process_html p now1 m).1 now2 m).2.new_items
        = (process_html p now1 m).2.new_items ∧
    (process_html (process_html p now1 m).1 now2 m).2.existing_items
        = (process_html p now1 m).2.existing_items + nonemptyLinkCount (parse_html now2 m) ∧
    (process_html (process_html p now1 m).1 now2 m).2.errors
        = (process_html p now1 m).2.errors + emptyLinkCount (parse_html now2 m) ∧
    (process_html (process_html p now1 m).1 now2 m).2.total_processed
        = (process_html p now1 m).2.total_processed + (parse_html now2 m).length ∧
    (process_html (process_html p now1 m).1 now2 m).1.db = (process_html p now1 m).1.db := by
  have hex : ∀ it ∈ parse_html now2 m, it.link ≠ "" →
      apartment_exists (runGen dbOps (parse_html now1 m) (p.db, p.stats)).1 it.link
        = true := by
    intro it hit hne
    unfold parse_html at hit
    obtain ⟨it0, h0, rfl⟩ := List.mem_map.mp hit
    have h1mem : { it0 with parsed_date := now1 } ∈ parse_html now1 m := by
      unfold parse_html
      exact List.mem_map_of_mem _ h0
    exact runGen_establishes (parse_html now1 m) p.db p.stats
      { it0 with parsed_date := now1 } h1mem hne
  have h2 := runGen_all_existing (parse_html now2 m)
    (runGen dbOps (parse_html now1 m) (p.db, p.stats)).1
    (runGen dbOps (parse_html now1 m) (p.db, p.stats)).2 hex
  exact ⟨h2.2.1, h2.2.2.1, h2.2.2.2.1, h2.2.2.2.2, h2.1⟩

/-- Parameterised witness card with a given title and link. -/
def wCard5 (t l : String) : Card :=
  { titleQ := (fun s => if s = ".title-root" then some (.ok t) else none),
    linkQ := fun s => if s = "a.link-link" then some { href := some l } else none }

/-- Witness markup: one page with 5 distinct-link records. -/
def wMarkup5 : Markup :=
  ⟨fun s => if s = "[data-marker=\"item\"]" then
      [wCard5 "t1" "L1", wCard5 "t2" "L2", wCard5 "t3" "L3",
       wCard5 "t4" "L4", wCard5 "t5" "L5"]
    else []⟩

/-- Counterexample to C4 as stated: on the concrete 5-record page, run 1
returns `{5, 5, 0, 0}` but run 2 returns `{10, 5, 5, 0}` — in particular its
`newItems` is 5, not 0, and it differs from the claimed `{5, 0, 5, 0}` —
because `self.stats` is never reset between passes. -/
theorem idempotence_literal_counterexample :
    (process_html setup_avito_processor "d1" wMarkup5).2
        = { total_processed := 5, new_items := 5, existing_items := 0, errors := 0 } ∧
    (process_html (process_html setup_avito_processor "d1" wMarkup5).1 "d2" wMarkup5).2
        = { total_processed := 10, new_items := 5, existing_items := 5, errors := 0 } ∧
    ({ total_processed := 10, new_items := 5, existing_items := 5, errors := 0 } : Stats)
        ≠ { total_processed := 5, new_items := 0, existing_items := 5, errors := 0 } ∧
    (5 : Nat) ≠ 0 :=
  ⟨by rfl, by rfl, by decide, by decide⟩

/-- C5 (amended). The `RunStats` counters are zeroed once, at processor
construction, and are NOT reset at the start of a pass: each `process_html`
call returns the counters accumulated since construction — the returned
`total_processed` is the pre-pass value plus this pass's record count, every
counter is monotone across passes, and the returned value is exactly the
processor's `self.stats` after the pass. -/
theorem stats_accumulate_across_passes :
    setup_avito_processor.stats = ({} : Stats) ∧
    (∀ (p : AvitoProcessor) (now : String) (m : Markup),
      (process_html p now m).2.total_processed
          = p.stats.total_processed + (parse_html now m).length ∧
      p.stats.new_items ≤ (process_html p now m).2.new_items ∧
      p.stats.existing_items ≤ (process_html p now m).2.existing_items ∧
      p.stats.errors ≤ (process_html p now m).2.errors ∧
      (process_html p now m).2 = (process_html p now m).1.stats) := by
  refine ⟨rfl, fun p now m => ⟨?_, ?_, ?_, ?_, rfl⟩⟩
  · exact runGen_total dbOps (parse_html now m) (p.db, p.stats)
  · exact (runGen_mono dbOps (parse_html now m) (p.db, p.stats)).2.1
  · exact (runGen_mono dbOps (parse_html now m) (p.db, p.stats)).2.2.1
  · exact (runGen_mono dbOps (parse_html now m) (p.db, p.stats)).2.2.2

/-- Witness markup: an empty page. -/
def wMarkupEmpty : Markup := ⟨fun _ => []⟩

/-- Witness markup: one page holding only the card `wCardA`. -/
def wMarkupOne : Markup :=
  ⟨fun s => if s = "[data-marker=\"item\"]" then [wCardA] else []⟩

/-- Counterexample to C5 as stated: a second pass over an EMPTY page returns
`{1, 1, 0, 0}` — the first pass's counters — although it processed zero
records; the counters were not reset at the start of the pass, so a pass's
returned stats do not reflect only that pass. -/
theorem stats_reset_counterexample :
    (parse_html "d2" wMarkupEmpty).length = 0 ∧
    (process_html (process_html setup_avito_processor "d1" wMarkupOne).1 "d2"
        wMarkupEmpty).2
      = { total_processed := 1, new_items := 1, existing_items := 0, errors := 0 } ∧
    ({ total_processed := 1, new_items := 1, existing_items := 0, errors := 0 } : Stats)
        ≠ ({} : Stats) :=
  ⟨rfl, by rfl, by decide⟩

/-- Witness for C1 at concrete inputs: an empty-link record only bumps
`errors`, and a two-record page against the concrete store accumulates its
counters as described. -/
theorem run_loop_counts_each_record_once_witness :
    stepGen dbOps (init_database, ({} : Stats)) { title := "t" } =
      (init_database, { total_processed := 1, errors := 1 }) ∧
    (runGen dbOps [{ title := "t", link := "L" }, { title := "t", link := "L" }]
        (init_database, ({} : Stats))).2.total_processed = 0 + 2 := by
  constructor
  · exact run_loop_counts_each_record_once.1 AvitoDatabase dbOps
      (init_database, ({} : Stats)) { title := "t" } rfl
  · exact (run_loop_counts_each_record_once.2.2.2.1 AvitoDatabase dbOps
      [{ title := "t", link := "L" }, { title := "t", link := "L" }]
      (init_database, ({} : Stats))).2.1

end Avito
